import Mathlib

/-
Formal model of the MeshSync scene-graph container
(src/Plugin~/MeshSync/SceneGraph/msSceneGraph.cpp).

The Scene aggregate and its tree-wide algorithms (serialize/deserialize with
hash validation, strip, merge, diff, lerp, buildHierarchy, flatternHierarchy,
import) are transcribed from the source.  Entity-, asset- and converter-level
operations (clone, strip, merge, diff, lerp, hash, refine, updateBounds,
convert) are external collaborators of this translation unit; they are kept
abstract in an `EntityOps` bundle, exactly as the Scene code consumes them.
C++ `parallel_for` regions write disjoint slots, so they are modelled as maps
over the entity list.  `uint64_t` arithmetic is modelled as `Nat` with an
explicit `% 2 ^ 64`.  Null `shared_ptr` slots (which `Scene::diff`'s `resize`
can produce) are modelled with `Option Entity`; dereferencing a null pointer
is undefined behaviour in C++, so the model simply leaves such slots alone
and theorems are stated over scenes where the relevant slots are non-null.
-/

/-- Coordinate handedness of `SceneSettings` (msSceneSettings). -/
inductive Handedness where
  | Left
  | Right
  | LeftZUp
  | RightZUp
deriving DecidableEq

/-- Plain configuration record attached to a scene.  `scale_factor` is a
C++ `float`; it is modelled as an exact rational. -/
structure SceneSettings where
  name : String
  handedness : Handedness
  scale_factor : Rat
deriving DecidableEq

/-- Concrete entity kinds (external msEntity type tags consumed by the
scene code through `getType()`). -/
inductive EntityType where
  | Transform
  | Camera
  | Light
  | Mesh
  | Points
deriving DecidableEq

/-- Modelled from the spec: geometry classification (`isGeometry()` of the
external entity contract); mesh-like kinds carrying vertex data are
geometries, transforms/cameras/lights are not. -/
def EntityType.isGeometry : EntityType → Bool
  | EntityType.Mesh => true
  | EntityType.Points => true
  | _ => false

/-- Cache flags consulted by `Scene::lerp` (`cache_flags.constant_topology`). -/
structure CacheFlags where
  constant_topology : Bool
deriving DecidableEq

/-- Mesh refinement settings written by `Scene::import`
(`refine_settings.flags.split`, `split_unit`, `max_bone_influence`). -/
structure MeshRefineSettings where
  split : Bool
  split_unit : Int
  max_bone_influence : Int
deriving DecidableEq

/-- 4x4 transform matrix (mu::float4x4); entries modelled as exact
integers, which is faithful for the structural composition facts proved
here. -/
def Mat4 : Type := Fin 4 → Fin 4 → Int

instance : DecidableEq Mat4 :=
  inferInstanceAs (DecidableEq (Fin 4 → Fin 4 → Int))

/-- Matrix product of the external float4x4 `operator*`. -/
def matMul (a b : Mat4) : Mat4 := fun i j =>
  a i 0 * b 0 j + a i 1 * b 1 j + a i 2 * b 2 j + a i 3 * b 3 j

instance : Mul Mat4 := ⟨matMul⟩

/-- Identity matrix. -/
def matId : Mat4 := fun i j => if i = j then 1 else 0

/-- Scene entity (external ms::Transform and subclasses).  Only the fields
the scene-level algorithms read or write are modelled; all remaining
entity-specific state is condensed into the opaque `payload`.  The
non-owning `parent` back-reference is an index into the owning scene's
entity collection.  `tmat` stands for the entity's own transform fields,
from which the external `toMatrix()` computes the local matrix. -/
structure Entity where
  path : String
  reference : String
  id : Int
  etype : EntityType
  cache_flags : CacheFlags
  parent : Option Nat
  local_matrix : Mat4
  global_matrix : Mat4
  tmat : Mat4
  bones : List String
  refine_settings : MeshRefineSettings
  payload : Nat
deriving DecidableEq

/-- Asset type tags (external msAsset). -/
inductive AssetType where
  | Texture
  | Material
  | Animation
  | Audio
  | File
deriving DecidableEq

/-- One animation channel of an AnimationClip (external msAnimation);
`Scene::import` sanitizes its path and runs the converter pipeline on it. -/
structure Anim where
  path : String
  payload : Nat
deriving DecidableEq

/-- Non-hierarchical payload with a hash and a type tag.  An Animation
asset owns its channels (`animations`); other asset kinds keep their state
in the opaque `payload`. -/
structure Asset where
  atype : AssetType
  animations : List Anim
  payload : Nat
deriving DecidableEq

/-- Opaque constraint record (external msConstraints). -/
structure Constraint where
  payload : Nat
deriving DecidableEq

/-- The scene aggregate (ms::Scene): settings + ordered assets + ordered
entities + constraints + transient scratch buffers. -/
structure Scene where
  settings : SceneSettings
  assets : List Asset
  entities : List (Option Entity)
  constraints : List Constraint
  scene_buffers : List Nat
deriving DecidableEq

/-- A default-constructed scene (`Scene::create()`). -/
def emptyScene : Scene :=
  { settings := { name := "", handedness := Handedness.Left, scale_factor := 1 }
  , assets := []
  , entities := []
  , constraints := []
  , scene_buffers := [] }

/-- The coordinate converters `Scene::import` can derive
(msEntityConverter, external). -/
inductive Converter where
  | scale (s : Rat)
  | flipX
  | flipYZ
  | rotateX
deriving DecidableEq

/-- Z-up correction strategy selected by the caller. -/
inductive ZUpCorrectionMode where
  | FlipYZ
  | RotateX
deriving DecidableEq

/-- Caller-supplied import configuration (SceneImportSettings). -/
structure SceneImportSettings where
  mesh_split_unit : Int
  mesh_max_bone_influence : Int
  zup_correction_mode : ZUpCorrectionMode
deriving DecidableEq

/-- Bundle of the external per-entity / per-asset capability surface the
scene algorithms invoke (clone, strip, merge, diff, lerp, hash, refine,
updateBounds, converter application).  The C++ code dispatches these
virtually; the model passes them explicitly. -/
structure EntityOps where
  eclone : Entity → Entity
  estrip : Entity → Entity → Entity
  emerge : Entity → Entity → Entity
  ediff : Entity → Entity → Entity → Entity
  elerp : Entity → Entity → Entity → Rat → Entity
  ehash : Entity → Nat
  ahash : Asset → Nat
  refine : Entity → Entity
  updateBounds : Entity → Entity
  convert : Converter → Entity → Entity
  convertAnim : Converter → Anim → Anim

/-- 64-bit wraparound addition: one `uint64_t` `+=` step. -/
def add64 (a h : Nat) : Nat := (a + h) % 2 ^ 64

/-- Hash of an entity slot; a null slot would be undefined behaviour in the
C++ loop and contributes 0 in the model (theorems only use non-null
scenes). -/
def ohash (ops : EntityOps) : Option Entity → Nat
  | some e => ops.ehash e
  | none => 0

/-- `Scene::hash`: `uint64_t` sum of every asset's hash and every entity's
hash, in collection order. -/
def Scene.hash (ops : EntityOps) (s : Scene) : Nat :=
  let r := s.assets.foldl (fun acc a => add64 acc (ops.ahash a)) 0
  s.entities.foldl (fun acc oe => add64 acc (ohash ops oe)) r

/-- One field written to / read from the byte stream.  Member encodings
(msWrite/msRead of each field) are external collaborators, so the stream is
modelled at field granularity. -/
inductive Tok where
  | u64 (h : Nat)
  | settings (st : SceneSettings)
  | assets (a : List Asset)
  | entities (e : List (Option Entity))
  | constraints (c : List Constraint)
deriving DecidableEq

/-- Deserialization failure. -/
inductive DesError where
  | dataIntegrity
  | malformed
deriving DecidableEq

/-- `Scene::serialize`: validation hash first, then settings, assets,
entities, constraints, in that order. -/
def Scene.serialize (ops : EntityOps) (s : Scene) : List Tok :=
  [ Tok.u64 (Scene.hash ops s)
  , Tok.settings s.settings
  , Tok.assets s.assets
  , Tok.entities s.entities
  , Tok.constraints s.constraints ]

/-- `Scene::deserialize`: read the hash, then settings, assets, entities,
constraints in the same order, then recompute the hash over the newly read
collections; a mismatch throws ("scene hash doesn't match"), modelled as
`DesError.dataIntegrity`.  A stream that does not present the fields in
this order fails as `malformed` (stream read failure). -/
def Scene.deserialize (ops : EntityOps) (s : Scene) (input : List Tok) :
    Except DesError Scene :=
  match input with
  | Tok.u64 h :: Tok.settings st :: Tok.assets a :: Tok.entities e ::
      Tok.constraints c :: _ =>
    let s2 := { s with settings := st, assets := a, entities := e, constraints := c }
    if h = Scene.hash ops s2 then Except.ok s2
    else Except.error DesError.dataIntegrity
  | _ => Except.error DesError.malformed

/-- `Scene::create(std::istream&)`: construct an empty scene, then
deserialize into it; the integrity failure propagates to the caller. -/
def Scene.create (ops : EntityOps) (input : List Tok) : Except DesError Scene :=
  Scene.deserialize ops emptyScene input

/-- `std::vector::resize(n)` on a vector of shared pointers: keep the first
`n` slots, pad with null. -/
def resizeFill (l : List (Option Entity)) (n : Nat) : List (Option Entity) :=
  l.take n ++ List.replicate (n - l.length) none

/-- Per-slot body of `Scene::strip`'s parallel_for: strip the entity
against the base entity at the same index when the ids match. -/
def stripSlots (ops : EntityOps) :
    List (Option Entity) → List (Option Entity) → List (Option Entity)
  | oe :: l1, ob :: l2 =>
    (match oe, ob with
     | some e, some b => if e.id = b.id then some (ops.estrip e b) else some e
     | _, _ => oe) :: stripSlots ops l1 l2
  | l1, _ => l1

/-- `Scene::strip(base)`: no-op unless the entity collections have equal
length. -/
def Scene.strip (ops : EntityOps) (s base : Scene) : Scene :=
  if s.entities.length = base.entities.length then
    { s with entities := stripSlots ops s.entities base.entities }
  else s

/-- Per-slot body of `Scene::merge`'s parallel_for. -/
def mergeSlots (ops : EntityOps) :
    List (Option Entity) → List (Option Entity) → List (Option Entity)
  | oe :: l1, ob :: l2 =>
    (match oe, ob with
     | some e, some b => if e.id = b.id then some (ops.emerge e b) else some e
     | _, _ => oe) :: mergeSlots ops l1 l2
  | l1, _ => l1

/-- `Scene::merge(base)`: no-op unless the entity collections have equal
length. -/
def Scene.merge (ops : EntityOps) (s base : Scene) : Scene :=
  if s.entities.length = base.entities.length then
    { s with entities := mergeSlots ops s.entities base.entities }
  else s

/-- Per-slot body of `Scene::diff`'s parallel_for: on matching ids the slot
gets a fresh clone of `e1` with the entity-level diff applied; on an id
mismatch only an error is logged and the slot keeps its post-resize
content `b`. -/
def diffSlots (ops : EntityOps) :
    List (Option Entity) → List (Option Entity) → List (Option Entity) →
    List (Option Entity)
  | oe1 :: l1, oe2 :: l2, b :: bs =>
    (match oe1, oe2 with
     | some e1, some e2 =>
       if e1.id = e2.id then some (ops.ediff (ops.eclone e1) e1 e2) else b
     | _, _ => b) :: diffSlots ops l1 l2 bs
  | _, _, _ => []

/-- The message `Scene::diff` logs on an id mismatch. -/
def diffErrorMsg : String := "Scene::diff(): should not be here!\n"

/-- Log effect of `Scene::diff`'s parallel_for, sequentialized in index
order: one `msLogError` message per aligned index whose ids disagree. -/
def diffLogSlots : List (Option Entity) → List (Option Entity) → List String
  | some e1 :: l1, some e2 :: l2 =>
    (if e1.id = e2.id then [] else [diffErrorMsg]) ++ diffLogSlots l1 l2
  | _ :: l1, _ :: l2 => diffLogSlots l1 l2
  | _, _ => []

/-- State effect of `Scene::diff(s1, s2)`: when the two entity collections
have equal length, copy `s1`'s settings, resize the receiver's entity
collection, and fill each aligned slot per `diffSlots`; otherwise a pure
no-op. -/
def Scene.diff (ops : EntityOps) (r s1 s2 : Scene) : Scene :=
  if s1.entities.length = s2.entities.length then
    { r with
      settings := s1.settings
      entities := diffSlots ops s1.entities s2.entities
        (resizeFill r.entities s1.entities.length) }
  else r

/-- Log effect of `Scene::diff(s1, s2)`. -/
def Scene.diffLog (s1 s2 : Scene) : List String :=
  if s1.entities.length = s2.entities.length then
    diffLogSlots s1.entities s2.entities
  else []

/-- Per-slot body of `Scene::lerp`'s parallel_for: on matching ids, a
geometry entity whose `constant_topology` flag is unset is held verbatim
from `s1`; any other matching slot gets a fresh clone of `e1` with the
entity-level lerp applied; an id mismatch leaves the post-resize content. -/
def lerpSlots (ops : EntityOps) (t : Rat) :
    List (Option Entity) → List (Option Entity) → List (Option Entity) →
    List (Option Entity)
  | oe1 :: l1, oe2 :: l2, b :: bs =>
    (match oe1, oe2 with
     | some e1, some e2 =>
       if e1.id = e2.id then
         if e1.etype.isGeometry && !e1.cache_flags.constant_topology then
           some e1
         else
           some (ops.elerp (ops.eclone e1) e1 e2 t)
       else b
     | _, _ => b) :: lerpSlots ops t l1 l2 bs
  | _, _, _ => []

/-- `Scene::lerp(s1, s2, t)`: when the two entity collections have equal
length, copy `s1`'s settings, resize the receiver's entity collection, and
fill each aligned slot per `lerpSlots`; otherwise a pure no-op. -/
def Scene.lerp (ops : EntityOps) (r s1 s2 : Scene) (t : Rat) : Scene :=
  if s1.entities.length = s2.entities.length then
    { r with
      settings := s1.settings
      entities := lerpSlots ops t s1.entities s2.entities
        (resizeFill r.entities s1.entities.length) }
  else r

/-- `Scene::clear`: reset the scene to empty, releasing all owned
collections. -/
def Scene.clear (s : Scene) : Scene :=
  { s with
    settings := { name := "", handedness := Handedness.Left, scale_factor := 1 }
    assets := []
    entities := []
    constraints := []
    scene_buffers := [] }

/-- `Scene::sanitizeHierarchyPath`: "nothing to do for now". -/
def sanitizeHierarchyPath (p : String) : String := p

/-- Modelled from the spec: the external `Transform::getParentPath` derives
the parent's path as the path with the last path-segment (and its slash)
removed; a path without a slash yields the empty string. -/
def parentPath (p : String) : String :=
  String.mk (((p.toList.reverse.dropWhile (fun c => c ≠ '/')).drop 1).reverse)

/-- Modelled from the spec: the external `Transform::getName` extracts the
short display name, i.e. the last path-segment. -/
def getNameFromPath (p : String) : String :=
  String.mk ((p.toList.reverse.takeWhile (fun c => c ≠ '/')).reverse)

/-- Exact-path lookup of `Scene::buildHierarchy`'s `find` lambda
(lower_bound over a path-sorted copy of the entity collection), expressed
as the index of the entity carrying that path.  For scenes with unique
paths (the hierarchy contract) this is exactly the source's binary
search. -/
def findPathIdx (es : List (Option Entity)) (p : String) : Option Nat :=
  es.findIdx? (fun oe => oe.any (fun e => e.path == p))

/-- `CalcGlobalMatrix`: walk up the parent chain composing
`local_matrix * parent.global`.  The C++ recursion has no termination
guard (a cyclic parent chain would not terminate); the model bounds it by
fuel, which is ample for every acyclic chain in a scene. -/
def calcGlobalMatrix (es : List (Option Entity)) : Nat → Entity → Mat4
  | 0, e => e.local_matrix
  | fuel + 1, e =>
    match e.parent with
    | none => e.local_matrix
    | some i =>
      match es.get? i with
      | some (some p) => e.local_matrix * calcGlobalMatrix es fuel p
      | _ => e.local_matrix

/-- `Scene::buildHierarchy`: pass 1 links each entity's parent (exact
lookup of its parent path) and computes `local_matrix` from the entity's
own transform fields; after the barrier, pass 2 composes every global
matrix recursively over the pass-1 results. -/
def Scene.buildHierarchy (s : Scene) : Scene :=
  let es1 := s.entities.map (fun oe => oe.map (fun e =>
    { e with
      parent := findPathIdx s.entities (parentPath e.path)
      local_matrix := e.tmat }))
  { s with entities := es1.map (fun oe => oe.map (fun e =>
      { e with global_matrix := calcGlobalMatrix es1 es1.length e })) }

/-- Lowercase hexadecimal rendering of `sprintf("%x", i)`. -/
def hexStr (n : Nat) : String := String.mk (Nat.toDigits 16 n)

/-- Lexicographic comparison of char lists: the std::map key order
(std::string operator<), written so it evaluates by kernel reduction. -/
def charsLt : List Char → List Char → Bool
  | _, [] => false
  | [], _ :: _ => true
  | a :: as, b :: bs =>
    if a < b then true else if b < a then false else charsLt as bs

/-- Lexicographic string comparison (std::string operator<). -/
def strLt (a b : String) : Bool := charsLt a.data b.data

/-- Lookup in the name-to-entity map (std::map keyed by string). -/
def mapFind (m : List (String × Entity)) (k : String) : Option Entity :=
  match m with
  | [] => none
  | (k2, v) :: rest => if k = k2 then some v else mapFind rest k

/-- Key-ordered insertion into the name-to-entity map; only ever called
with a key not yet present. -/
def mapInsert (m : List (String × Entity)) (k : String) (v : Entity) :
    List (String × Entity) :=
  match m with
  | [] => [(k, v)]
  | (k2, v2) :: rest =>
    if strLt k k2 then (k, v) :: (k2, v2) :: rest
    else (k2, v2) :: mapInsert rest k v

/-- The collision probe of `Scene::flatternHierarchy`: try
`name + hex(i)` for i = 0, 1, 2, ... until a free key is found.  The C++
loop is unbounded; the model carries fuel, which suffices because at most
`m.length` probes can be occupied. -/
def probeInsert (m : List (String × Entity)) (name : String) (e : Entity) :
    Nat → Nat → List (String × Entity)
  | 0, _ => m
  | fuel + 1, i =>
    let k := name ++ hexStr i
    match mapFind m k with
    | none => mapInsert m k e
    | some _ => probeInsert m name e fuel (i + 1)

/-- Insert one entity under its short name, probing hex suffixes on
collision. -/
def flatInsert (m : List (String × Entity)) (e : Entity) :
    List (String × Entity) :=
  let name := getNameFromPath e.path
  match mapFind m name with
  | none => mapInsert m name e
  | some _ => probeInsert m name e (m.length + 1) 0

/-- One step of `Scene::flatternHierarchy`'s entity loop: skip pure
Transform grouping nodes, insert every other entity under its short
name. -/
def flatStep (m : List (String × Entity)) (oe : Option Entity) :
    List (String × Entity) :=
  match oe with
  | some e => if e.etype = EntityType.Transform then m else flatInsert m e
  | none => m

/-- The name-to-entity map `Scene::flatternHierarchy` builds: every
non-Transform entity inserted in collection order. -/
def flatResult (s : Scene) : List (String × Entity) :=
  s.entities.foldl flatStep []

/-- `Scene::flatternHierarchy`: rebuild `entities` from the map in key
order, rewriting each path to "/" + finalName. -/
def Scene.flatternHierarchy (s : Scene) : Scene :=
  { s with entities := (flatResult s).map (fun kv =>
      some { kv.2 with path := "/" ++ kv.1 }) }

/-- Path sanitization applied on entry of `Scene::import` (paths,
references, bone paths, animation channel paths). -/
def sanitizeEntity (e : Entity) : Entity :=
  { e with
    path := sanitizeHierarchyPath e.path
    reference := sanitizeHierarchyPath e.reference }

/-- The refinement settings `Scene::import` forces onto every mesh: bone
paths sanitized, split flag enabled, caller-supplied split unit and bone
influence limit. -/
def applyRefineSettings (cv : SceneImportSettings) (e : Entity) : Entity :=
  { e with
    bones := e.bones.map sanitizeHierarchyPath
    refine_settings :=
      { split := true
      , split_unit := cv.mesh_split_unit
      , max_bone_influence := cv.mesh_max_bone_influence } }

/-- The `convert` lambda: apply every converter of the pipeline in order. -/
def applyConverters (ops : EntityOps) (cs : List Converter) (e : Entity) :
    Entity :=
  cs.foldl (fun acc c => ops.convert c acc) e

/-- The entity pass guards conversion with `if (!converters.empty())`. -/
def applyConvertersIfAny (ops : EntityOps) (cs : List Converter) (e : Entity) :
    Entity :=
  if cs.isEmpty then e else applyConverters ops cs e

/-- Per-entity body of `Scene::import`'s parallel_for_each: sanitize paths;
for a mesh additionally sanitize bones, force the split refinement
settings and refine; apply the converter pipeline; for a mesh recompute
bounds.  The mesh test is made once, on the unconverted entity. -/
def importEntity (ops : EntityOps) (cv : SceneImportSettings)
    (cs : List Converter) (e : Entity) : Entity :=
  if e.etype = EntityType.Mesh then
    ops.updateBounds
      (applyConvertersIfAny ops cs
        (ops.refine (applyRefineSettings cv (sanitizeEntity e))))
  else
    applyConvertersIfAny ops cs (sanitizeEntity e)

/-- Per-channel body of the animation pass: sanitize the channel path and
run the converter pipeline (unguarded in the source). -/
def importAnim (ops : EntityOps) (cs : List Converter) (a : Anim) : Anim :=
  cs.foldl (fun acc c => ops.convertAnim c acc)
    { a with path := sanitizeHierarchyPath a.path }

/-- Asset pass of `Scene::import`: only Animation assets are touched; each
of their channels is converted. -/
def importAsset (ops : EntityOps) (cs : List Converter) (a : Asset) : Asset :=
  if a.atype = AssetType.Animation then
    { a with animations := a.animations.map (importAnim ops cs) }
  else a

/-- The converter pipeline `Scene::import` derives from the scene's own
settings: a scale converter when `scale_factor != 1`, an X flip for
right-handed producers, a Z-up corrector (strategy per caller
configuration) for Z-up producers. -/
def makeConverters (cv : SceneImportSettings) (st : SceneSettings) :
    List Converter :=
  (if st.scale_factor = 1 then [] else [Converter.scale (1 / st.scale_factor)])
  ++ (if st.handedness = Handedness.Right ∨ st.handedness = Handedness.RightZUp
      then [Converter.flipX] else [])
  ++ (if st.handedness = Handedness.LeftZUp ∨ st.handedness = Handedness.RightZUp
      then
        (match cv.zup_correction_mode with
         | ZUpCorrectionMode.FlipYZ => [Converter.flipYZ]
         | ZUpCorrectionMode.RotateX => [Converter.rotateX])
      else [])

/-- `Scene::import` (named `importScene` because `import` is reserved in
Lean): derive the converter pipeline from the scene's settings, run the
entity pass and the animation-asset pass, then forcibly reset the settings
to canonical (Left handedness, scale 1). -/
def Scene.importScene (ops : EntityOps) (cv : SceneImportSettings)
    (s : Scene) : Scene :=
  let cs := makeConverters cv s.settings
  { s with
    entities := s.entities.map (Option.map (importEntity ops cv cs))
    assets := s.assets.map (importAsset ops cs)
    settings := { s.settings with
      handedness := Handedness.Left
      scale_factor := 1 } }

/-- `Scene::findEntity`: first entity whose path matches. -/
def Scene.findEntity (s : Scene) (path : String) : Option Entity :=
  s.entities.foldl
    (fun acc oe =>
      match acc with
      | some _ => acc
      | none =>
        match oe with
        | some e => if e.path = path then some e else none
        | none => none)
    none

/-
Concrete fixtures shared by several witnesses.
-/

/-- A concrete entity used by witnesses. -/
def wEntity : Entity :=
  { path := "/E"
  , reference := ""
  , id := 1
  , etype := EntityType.Mesh
  , cache_flags := { constant_topology := true }
  , parent := none
  , local_matrix := matId
  , global_matrix := matId
  , tmat := matId
  , bones := []
  , refine_settings := { split := false, split_unit := 0, max_bone_influence := 0 }
  , payload := 0 }

/-- A trivial instantiation of the external capability bundle, used by
witnesses. -/
def wOps : EntityOps :=
  { eclone := fun e => e
  , estrip := fun e _ => e
  , emerge := fun e _ => e
  , ediff := fun e _ _ => e
  , elerp := fun e _ _ _ => e
  , ehash := fun _ => 0
  , ahash := fun _ => 0
  , refine := fun e => e
  , updateBounds := fun e => e
  , convert := fun _ e => e
  , convertAnim := fun _ a => a }

/-- A one-entity scene used by witnesses. -/
def wScene1 : Scene := { emptyScene with entities := [some wEntity] }

/-- Saturating 64-bit addition, following the spec's words ("saturating
sum"); kept separate from `add64` (the code's wraparound `+=`) so the two
hash readings can be compared. -/
def satAdd64 (a h : Nat) : Nat := min (a + h) (2 ^ 64 - 1)

/-- The validation hash as the claim words it: the saturating sum of every
asset's hash and every entity's hash. -/
def sceneHashSaturating (ops : EntityOps) (s : Scene) : Nat :=
  let r := s.assets.foldl (fun acc a => satAdd64 acc (ops.ahash a)) 0
  s.entities.foldl (fun acc oe => satAdd64 acc (ohash ops oe)) r

/-- The map built by `flatternHierarchy` is strictly sorted by key. -/
def SortedKeys (m : List (String × Entity)) : Prop :=
  m.Pairwise (fun a b => strLt a.1 b.1 = true)

/-- The global matrix stored at entity index `i`. -/
def globalMatrixAt (s : Scene) (i : Nat) : Option Mat4 :=
  ((s.entities.get? i).bind id).map Entity.global_matrix

/-- Matrix unit with a single 1 at row 0, column 0. -/
def mE00 : Mat4 := fun i j => if i = 0 ∧ j = 0 then 1 else 0

/-- Matrix unit with a single 1 at row 0, column 1. -/
def mE01 : Mat4 := fun i j => if i = 0 ∧ j = 1 then 1 else 0

/-- Witness entity with identity `n`. -/
def wEnt (n : Int) : Entity := { wEntity with id := n }

/-- Witness entity with transform fields `m`. -/
def cEnt (m : Mat4) : Entity := { wEntity with tmat := m }

/-- The three-entity scene of the hierarchy claim: paths /A, /A/B, /A/B/C
with otherwise arbitrary entities. -/
def c6s (e1 e2 e3 : Entity) : Scene :=
  { emptyScene with entities :=
      [ some { e1 with path := "/A" }
      , some { e2 with path := "/A/B" }
      , some { e3 with path := "/A/B/C" } ] }

/-- Witness asset. -/
def wAsset : Asset := { atype := AssetType.Texture, animations := [], payload := 0 }

/-- Capability bundle whose asset hash is 2^63, exhibiting 64-bit
wraparound. -/
def bigOps : EntityOps := { wOps with ahash := fun _ => 2 ^ 63 }

/-- Two-asset scene whose asset hashes sum past 2^64. -/
def wScene2a : Scene :=
  { emptyScene with assets := [wAsset, { wAsset with payload := 1 }] }

/-- Scene with two non-Transform entities both short-named Box. -/
def wBoxScene : Scene :=
  { emptyScene with entities :=
      [ some { wEntity with path := "/Root/Box", etype := EntityType.Camera }
      , some { wEntity with path := "/Stage/Box", etype := EntityType.Mesh, payload := 1 } ] }

/-- Geometry entity with varying topology (constant_topology unset). -/
def wEntG : Entity :=
  { wEntity with etype := EntityType.Mesh, cache_flags := { constant_topology := false } }

/-- Aligned partner of `wEntG` (same id). -/
def wEntG2 : Entity := { wEntG with payload := 7 }

/-- One-geometry scene, s1 of the lerp witness. -/
def wSL1 : Scene := { emptyScene with entities := [some wEntG] }

/-- One-geometry scene, s2 of the lerp witness. -/
def wSL2 : Scene := { emptyScene with entities := [some wEntG2] }

/-- First scene of the diff witness: ids 1 and 2. -/
def wS1d : Scene := { emptyScene with entities := [some (wEnt 1), some (wEnt 2)] }

/-- Second scene of the diff witness: ids 1 and 3 (mismatch at index 1). -/
def wS2d : Scene := { emptyScene with entities := [some (wEnt 1), some (wEnt 3)] }

/-- Witness import configuration. -/
def wImportSettings : SceneImportSettings :=
  { mesh_split_unit := 8
  , mesh_max_bone_influence := 4
  , zup_correction_mode := ZUpCorrectionMode.FlipYZ }

/-- Witness scene for import: one mesh, right-handed producer. -/
def wImportScene : Scene :=
  { emptyScene with
    entities := [some wEntity]
    settings := { name := "p", handedness := Handedness.Right, scale_factor := 1 } }

/-- The witness mesh after the first import pass. -/
def wImpEnt : Entity :=
  { wEntity with refine_settings :=
      { split := true, split_unit := 8, max_bone_influence := 4 } }

/-- C1: deserializing the byte stream produced by `serialize(S)` into a
fresh Scene succeeds and yields a scene whose settings, assets, entities
and constraints all equal `S`'s (the recomputed validation hash is the
hash of those same collections, so the integrity check passes). -/
theorem scene_serialize_roundtrip (ops : EntityOps) (S : Scene) :
    Scene.deserialize ops emptyScene (Scene.serialize ops S) =
      Except.ok { S with scene_buffers := [] } := by
  show (if Scene.hash ops S = Scene.hash ops _ then _ else _) = _
  rw [if_pos (show Scene.hash ops S = Scene.hash ops
    { settings := S.settings, assets := S.assets, entities := S.entities,
      constraints := S.constraints,
      scene_buffers := emptyScene.scene_buffers } from rfl)]
  rfl

/-- C2: on a stream presenting the hash, settings, assets, entities and
constraints in order, `deserialize` fails with the data-integrity error
exactly when the stored hash differs from the hash recomputed over the
newly built collections, succeeds otherwise, and `create(source)` is
construct-then-deserialize, so it propagates the same failure. -/
theorem scene_deserialize_integrity (ops : EntityOps) (s : Scene) (h : Nat)
    (st : SceneSettings) (a : List Asset) (e : List (Option Entity))
    (c : List Constraint) (rest : List Tok) :
    (Scene.deserialize ops s
        (Tok.u64 h :: Tok.settings st :: Tok.assets a :: Tok.entities e ::
          Tok.constraints c :: rest) =
        Except.error DesError.dataIntegrity ↔
      h ≠ Scene.hash ops
        { s with settings := st, assets := a, entities := e, constraints := c }) ∧
    (h = Scene.hash ops
        { s with settings := st, assets := a, entities := e, constraints := c } →
      Scene.deserialize ops s
        (Tok.u64 h :: Tok.settings st :: Tok.assets a :: Tok.entities e ::
          Tok.constraints c :: rest) =
        Except.ok
          { s with settings := st, assets := a, entities := e, constraints := c }) ∧
    (∀ input, Scene.create ops input = Scene.deserialize ops emptyScene input) := by
  refine ⟨?_, ?_, fun input => rfl⟩
  · by_cases hh : h = Scene.hash ops
      { s with settings := st, assets := a, entities := e, constraints := c } <;>
      simp [Scene.deserialize, hh]
  · intro hh
    simp [Scene.deserialize, hh]

/-- Witness for C2 at a concrete corrupt stream: a stored hash of 1 over
empty collections (true hash 0) is rejected as a data-integrity error. -/
theorem scene_deserialize_integrity_witness :
    Scene.deserialize wOps emptyScene
        (Tok.u64 1 :: Tok.settings emptyScene.settings :: Tok.assets [] ::
          Tok.entities [] :: Tok.constraints [] :: []) =
      Except.error DesError.dataIntegrity :=
  (scene_deserialize_integrity wOps emptyScene 1 emptyScene.settings [] [] []
    []).1.mpr (by decide)

/-- C3: on entity collections of different lengths, each of strip, merge,
diff and lerp is a pure no-op: the receiver scene is returned exactly as
it was. -/
theorem scene_alignment_guard_noop (ops : EntityOps) (s1 s2 r : Scene)
    (t : Rat) (hlen : s1.entities.length ≠ s2.entities.length) :
    Scene.strip ops s1 s2 = s1 ∧ Scene.merge ops s1 s2 = s1 ∧
    Scene.diff ops r s1 s2 = r ∧ Scene.lerp ops r s1 s2 t = r := by
  refine ⟨?_, ?_, ?_, ?_⟩ <;>
    simp [Scene.strip, Scene.merge, Scene.diff, Scene.lerp, hlen]

/-- Witness for C3: a one-entity scene against an empty scene. -/
theorem scene_alignment_guard_noop_witness :
    wScene1.entities.length ≠ emptyScene.entities.length ∧
    (Scene.strip wOps wScene1 emptyScene = wScene1 ∧
     Scene.merge wOps wScene1 emptyScene = wScene1 ∧
     Scene.diff wOps emptyScene wScene1 emptyScene = emptyScene ∧
     Scene.lerp wOps emptyScene wScene1 emptyScene 0 = emptyScene) :=
  ⟨by decide,
   scene_alignment_guard_noop wOps wScene1 emptyScene emptyScene 0 (by decide)⟩

/-- C10: `diff` and `lerp` write only the receiver's settings and
entities; its assets, constraints and scene buffers are exactly what they
were before the call, whatever the inputs. -/
theorem scene_diff_lerp_preserve_other_fields (ops : EntityOps)
    (r s1 s2 : Scene) (t : Rat) :
    (Scene.diff ops r s1 s2).assets = r.assets ∧
    (Scene.diff ops r s1 s2).constraints = r.constraints ∧
    (Scene.diff ops r s1 s2).scene_buffers = r.scene_buffers ∧
    (Scene.lerp ops r s1 s2 t).assets = r.assets ∧
    (Scene.lerp ops r s1 s2 t).constraints = r.constraints ∧
    (Scene.lerp ops r s1 s2 t).scene_buffers = r.scene_buffers := by
  unfold Scene.diff Scene.lerp
  refine ⟨?_, ?_, ?_, ?_, ?_, ?_⟩ <;> (split <;> rfl)

/-- Length of the resized receiver collection. -/
theorem resizeFill_length (l : List (Option Entity)) (n : Nat) :
    (resizeFill l n).length = n := by
  simp [resizeFill]
  omega

/-- Slot-level behaviour of `diffSlots` at an aligned non-null index. -/
theorem diffSlots_get (ops : EntityOps) :
    ∀ (l1 l2 b : List (Option Entity)) (i : Nat) (e1 e2 : Entity),
      l1.get? i = some (some e1) → l2.get? i = some (some e2) →
      i < b.length →
      (diffSlots ops l1 l2 b).get? i =
        if e1.id = e2.id then some (some (ops.ediff (ops.eclone e1) e1 e2))
        else b.get? i := by
  intro l1
  induction l1 with
  | nil => intro l2 b i e1 e2 h1; simp at h1
  | cons x l1 ih =>
    intro l2 b i e1 e2 h1 h2 hb
    cases l2 with
    | nil => simp at h2
    | cons y l2 =>
      cases b with
      | nil => simp at hb
      | cons z bs =>
        cases i with
        | zero =>
          simp only [List.get?_cons_zero, Option.some.injEq] at h1 h2
          subst h1; subst h2
          by_cases hid : e1.id = e2.id <;> simp [diffSlots, hid]
        | succ i =>
          simp only [List.get?_cons_succ] at h1 h2
          simp only [List.length_cons, Nat.succ_lt_succ_iff] at hb
          simpa [diffSlots] using ih l2 bs i e1 e2 h1 h2 hb

/-- Length of the `diffSlots` output. -/
theorem diffSlots_length (ops : EntityOps) :
    ∀ (l1 l2 b : List (Option Entity)),
      (diffSlots ops l1 l2 b).length =
        min l1.length (min l2.length b.length) := by
  intro l1
  induction l1 with
  | nil => intro l2 b; cases l2 <;> cases b <;> simp [diffSlots]
  | cons x l1 ih =>
    intro l2 b
    cases l2 with
    | nil => simp [diffSlots]
    | cons y l2 =>
      cases b with
      | nil => simp [diffSlots]
      | cons z bs =>
        simp only [diffSlots, List.length_cons, ih]
        omega

/-- A mismatched id at an aligned index leaves a log message. -/
theorem diffLogSlots_mem :
    ∀ (l1 l2 : List (Option Entity)) (i : Nat) (e1 e2 : Entity),
      l1.get? i = some (some e1) → l2.get? i = some (some e2) →
      e1.id ≠ e2.id → diffErrorMsg ∈ diffLogSlots l1 l2 := by
  intro l1
  induction l1 with
  | nil => intro l2 i e1 e2 h1; simp at h1
  | cons x l1 ih =>
    intro l2 i e1 e2 h1 h2 hid
    cases l2 with
    | nil => simp at h2
    | cons y l2 =>
      cases i with
      | zero =>
        simp only [List.get?_cons_zero, Option.some.injEq] at h1 h2
        subst h1; subst h2
        simp [diffLogSlots, hid]
      | succ i =>
        simp only [List.get?_cons_succ] at h1 h2
        have hrec := ih l2 i e1 e2 h1 h2 hid
        cases x with
        | none => simpa [diffLogSlots] using hrec
        | some ex =>
          cases y with
          | none => simpa [diffLogSlots] using hrec
          | some ey => simp [diffLogSlots, hrec]

/-- C4: for `diff` on equal-length collections, every aligned index with
matching ids receives a fresh clone of `s1`'s entity with the entity-level
diff applied; at an id mismatch the logical-error message is logged, the
index is skipped, and the slot keeps its deterministic post-resize content
(neither thrown away nor overwritten with garbage); the output collection
keeps the full length. -/
theorem scene_diff_aligned (ops : EntityOps) (r s1 s2 : Scene)
    (hlen : s1.entities.length = s2.entities.length)
    (i : Nat) (e1 e2 : Entity)
    (h1 : s1.entities.get? i = some (some e1))
    (h2 : s2.entities.get? i = some (some e2)) :
    (Scene.diff ops r s1 s2).entities.length = s1.entities.length ∧
    (e1.id = e2.id →
      (Scene.diff ops r s1 s2).entities.get? i =
        some (some (ops.ediff (ops.eclone e1) e1 e2))) ∧
    (e1.id ≠ e2.id →
      (Scene.diff ops r s1 s2).entities.get? i =
        (resizeFill r.entities s1.entities.length).get? i ∧
      diffErrorMsg ∈ Scene.diffLog s1 s2) := by
  have hi : i < s1.entities.length := by
    rcases List.get?_eq_some.mp h1 with ⟨hi, -⟩; exact hi
  have hb : i < (resizeFill r.entities s1.entities.length).length := by
    rw [resizeFill_length]; exact hi
  have hgot := diffSlots_get ops s1.entities s2.entities
    (resizeFill r.entities s1.entities.length) i e1 e2 h1 h2 hb
  refine ⟨?_, ?_, ?_⟩
  · simp only [Scene.diff, if_pos hlen]
    rw [diffSlots_length, resizeFill_length, ← hlen]
    simp
  · intro hid
    simp only [Scene.diff, if_pos hlen]
    rw [hgot, if_pos hid]
  · intro hid
    constructor
    · simp only [Scene.diff, if_pos hlen]
      rw [hgot, if_neg hid]
    · simp only [Scene.diffLog, if_pos hlen]
      exact diffLogSlots_mem s1.entities s2.entities i e1 e2 h1 h2 hid

/-- Witness for C4 at the mismatching index 1 of `wS1d` / `wS2d`. -/
theorem scene_diff_aligned_witness :
    (Scene.diff wOps emptyScene wS1d wS2d).entities.get? 1 =
      (resizeFill emptyScene.entities wS1d.entities.length).get? 1 ∧
    diffErrorMsg ∈ Scene.diffLog wS1d wS2d :=
  (scene_diff_aligned wOps emptyScene wS1d wS2d (by decide) 1 (wEnt 2) (wEnt 3)
    (by decide) (by decide)).2.2 (by decide)

/-- Slot-level behaviour of `lerpSlots` at an aligned non-null index. -/
theorem lerpSlots_get (ops : EntityOps) (t : Rat) :
    ∀ (l1 l2 b : List (Option Entity)) (i : Nat) (e1 e2 : Entity),
      l1.get? i = some (some e1) → l2.get? i = some (some e2) →
      i < b.length →
      (lerpSlots ops t l1 l2 b).get? i =
        if e1.id = e2.id then
          (if e1.etype.isGeometry && !e1.cache_flags.constant_topology then
            some (some e1)
          else some (some (ops.elerp (ops.eclone e1) e1 e2 t)))
        else b.get? i := by
  intro l1
  induction l1 with
  | nil => intro l2 b i e1 e2 h1; simp at h1
  | cons x l1 ih =>
    intro l2 b i e1 e2 h1 h2 hb
    cases l2 with
    | nil => simp at h2
    | cons y l2 =>
      cases b with
      | nil => simp at hb
      | cons z bs =>
        cases i with
        | zero =>
          simp only [List.get?_cons_zero, Option.some.injEq] at h1 h2
          subst h1; subst h2
          by_cases hid : e1.id = e2.id
          · by_cases hgeo :
              (e1.etype.isGeometry && !e1.cache_flags.constant_topology) = true <;>
              simp [lerpSlots, hid, hgeo]
          · simp [lerpSlots, hid]
        | succ i =>
          simp only [List.get?_cons_succ] at h1 h2
          simp only [List.length_cons, Nat.succ_lt_succ_iff] at hb
          simpa [lerpSlots] using ih l2 bs i e1 e2 h1 h2 hb

/-- C5: for `lerp` on equal-length collections at an id-aligned index, a
geometry entity with `constant_topology` unset is held verbatim from `s1`
whatever `t`; every other aligned index receives a clone of `s1`'s entity
with the entity-level lerp at fraction `t` applied; hence, whenever the
entity-level lerp satisfies the boundary laws, entities with
`constant_topology` set come out as `s1`'s entity at t = 0 and `s2`'s at
t = 1. -/
theorem scene_lerp_policy (ops : EntityOps) (r s1 s2 : Scene) (t : Rat)
    (hlen : s1.entities.length = s2.entities.length)
    (i : Nat) (e1 e2 : Entity)
    (h1 : s1.entities.get? i = some (some e1))
    (h2 : s2.entities.get? i = some (some e2))
    (hid : e1.id = e2.id) :
    (e1.etype.isGeometry = true → e1.cache_flags.constant_topology = false →
      (Scene.lerp ops r s1 s2 t).entities.get? i = some (some e1)) ∧
    ((e1.etype.isGeometry && !e1.cache_flags.constant_topology) = false →
      (Scene.lerp ops r s1 s2 t).entities.get? i =
        some (some (ops.elerp (ops.eclone e1) e1 e2 t))) ∧
    ((∀ c a b, ops.elerp c a b 0 = a) →
      e1.cache_flags.constant_topology = true →
      (Scene.lerp ops r s1 s2 0).entities.get? i = some (some e1)) ∧
    ((∀ c a b, ops.elerp c a b 1 = b) →
      e1.cache_flags.constant_topology = true →
      (Scene.lerp ops r s1 s2 1).entities.get? i = some (some e2)) := by
  have hi : i < s1.entities.length := by
    rcases List.get?_eq_some.mp h1 with ⟨hi, -⟩; exact hi
  have hb : i < (resizeFill r.entities s1.entities.length).length := by
    rw [resizeFill_length]; exact hi
  have hgot : ∀ u : Rat,
      (Scene.lerp ops r s1 s2 u).entities.get? i =
        if e1.etype.isGeometry && !e1.cache_flags.constant_topology then
          some (some e1)
        else some (some (ops.elerp (ops.eclone e1) e1 e2 u)) := by
    intro u
    simp only [Scene.lerp, if_pos hlen]
    rw [lerpSlots_get ops u s1.entities s2.entities _ i e1 e2 h1 h2 hb,
      if_pos hid]
  refine ⟨?_, ?_, ?_, ?_⟩
  · intro hg hc
    rw [hgot t, if_pos (by simp [hg, hc])]
  · intro hflag
    rw [hgot t, if_neg (by simp [hflag])]
  · intro hlaw hc
    rw [hgot 0, if_neg (by simp [hc]), hlaw]
  · intro hlaw hc
    rw [hgot 1, if_neg (by simp [hc]), hlaw]

/-- Witness for C5: a varying-topology geometry entity is held verbatim at
t = 1/2. -/
theorem scene_lerp_policy_witness :
    (Scene.lerp wOps emptyScene wSL1 wSL2 (1 / 2)).entities.get? 0 =
      some (some wEntG) :=
  (scene_lerp_policy wOps emptyScene wSL1 wSL2 (1 / 2) (by decide) 0 wEntG
    wEntG2 (by decide) (by decide) (by decide)).1 (by decide) (by decide)

/-- One wraparound-accumulating fold equals the plain sum reduced mod
2^64, provided the accumulator is already reduced. -/
theorem foldl_add64 {α : Type} (f : α → Nat) :
    ∀ (l : List α) (c : Nat), c < 2 ^ 64 →
      l.foldl (fun acc x => add64 acc (f x)) c =
        (c + (l.map f).sum) % 2 ^ 64 := by
  intro l
  induction l with
  | nil => intro c hc; simp; omega
  | cons x xs ih =>
    intro c hc
    simp only [List.foldl_cons, List.map_cons, List.sum_cons]
    rw [ih (add64 c (f x)) (Nat.mod_lt _ (by norm_num))]
    rw [add64, Nat.mod_add_mod, Nat.add_assoc]

/-- `Scene::hash` in closed form: wraparound (mod 2^64) sum of all asset
hashes plus all entity hashes. -/
theorem scene_hash_eq (ops : EntityOps) (s : Scene) :
    Scene.hash ops s =
      ((s.assets.map ops.ahash).sum + (s.entities.map (ohash ops)).sum) %
        2 ^ 64 := by
  show s.entities.foldl _ (s.assets.foldl _ 0) = _
  rw [foldl_add64 ops.ahash s.assets 0 (by norm_num)]
  rw [foldl_add64 (ohash ops) s.entities _ (Nat.mod_lt _ (by norm_num))]
  rw [Nat.mod_add_mod, Nat.zero_add]

/-- Counterexample to C9 as stated: the code's hash wraps around at 2^64
(two asset hashes of 2^63 sum to 0), it does not saturate. -/
theorem scene_hash_saturating_counterexample :
    Scene.hash bigOps wScene2a ≠ sceneHashSaturating bigOps wScene2a := by
  decide

/-- C9 (amended): the validation hash is the 64-bit wraparound (mod 2^64)
sum of every asset's hash and every entity's hash, and it is invariant
under any permutation of the asset or entity collections. -/
theorem scene_hash_wraparound_order_independent (ops : EntityOps) (s : Scene)
    (assets2 : List Asset) (ents2 : List (Option Entity))
    (hpa : assets2.Perm s.assets) (hpe : ents2.Perm s.entities) :
    Scene.hash ops s =
      ((s.assets.map ops.ahash).sum + (s.entities.map (ohash ops)).sum) %
        2 ^ 64 ∧
    Scene.hash ops { s with assets := assets2, entities := ents2 } =
      Scene.hash ops s := by
  refine ⟨scene_hash_eq ops s, ?_⟩
  rw [scene_hash_eq, scene_hash_eq]
  simp only []
  rw [List.Perm.sum_eq (hpa.map ops.ahash), List.Perm.sum_eq (hpe.map (ohash ops))]

/-- Witness for C9 (amended) at a concrete permutation: swapping the two
assets of `wScene2a` leaves the hash unchanged. -/
theorem scene_hash_wraparound_witness :
    Scene.hash bigOps
        { wScene2a with
          assets := [{ wAsset with payload := 1 }, wAsset]
          entities := [] } =
      Scene.hash bigOps wScene2a :=
  (scene_hash_wraparound_order_independent bigOps wScene2a
    [{ wAsset with payload := 1 }, wAsset] [] (by decide) (by decide)).2

/-- C6 (amended): after `buildHierarchy` on a scene with paths /A, /A/B,
/A/B/C, each entity's parent is the entity whose path is its own path with
the last segment removed (none for the root /A), every local matrix comes
from the entity's own transform fields, and /A/B/C's global matrix is the
product of the three local matrices in leaf-to-root order, composed as
`local_matrix * parent.global_matrix`. -/
theorem scene_buildHierarchy_chain (e1 e2 e3 : Entity) :
    (Scene.buildHierarchy (c6s e1 e2 e3)).entities =
      [ some { e1 with path := "/A", parent := none, local_matrix := e1.tmat, global_matrix := e1.tmat }
      , some { e2 with path := "/A/B", parent := some 0, local_matrix := e2.tmat, global_matrix := e2.tmat * e1.tmat }
      , some { e3 with path := "/A/B/C", parent := some 1, local_matrix := e3.tmat, global_matrix := e3.tmat * (e2.tmat * e1.tmat) } ] := by
  rfl

/-- Counterexample to C6 as stated: with local matrices mE00, mE01, matId
down the chain, the product in root-to-leaf order (mE00 * mE01 * matId)
differs from the global matrix the code computes for /A/B/C (which is
matId * (mE01 * mE00)). -/
theorem scene_buildHierarchy_order_counterexample :
    globalMatrixAt
        (Scene.buildHierarchy (c6s (cEnt mE00) (cEnt mE01) (cEnt matId))) 2 ≠
      some (mE00 * mE01 * matId) := by
  decide

/-- Head-unfolding of the lexicographic comparison. -/
theorem charsLt_cons_iff (a b : Char) (as bs : List Char) :
    charsLt (a :: as) (b :: bs) = true ↔
      a < b ∨ (a = b ∧ charsLt as bs = true) := by
  rcases lt_trichotomy a b with h | h | h
  · simp [charsLt, h]
  · subst h
    simp [charsLt, lt_irrefl]
  · have h1 : ¬ a < b := lt_asymm h
    have h2 : a ≠ b := (ne_of_lt h).symm
    simp [charsLt, h1, h, h2]

/-- The lexicographic comparison is irreflexive. -/
theorem charsLt_irrefl : ∀ l : List Char, charsLt l l = false := by
  intro l
  induction l with
  | nil => rfl
  | cons a as ih => simp [charsLt, lt_irrefl, ih]

/-- The lexicographic comparison is transitive. -/
theorem charsLt_trans : ∀ (l1 l2 l3 : List Char), charsLt l1 l2 = true →
    charsLt l2 l3 = true → charsLt l1 l3 = true := by
  intro l1
  induction l1 with
  | nil =>
    intro l2 l3 h12 h23
    cases l3 with
    | nil =>
      cases l2 with
      | nil => simp [charsLt] at h12
      | cons b bs => simp [charsLt] at h23
    | cons c cs => simp [charsLt]
  | cons a as ih =>
    intro l2 l3 h12 h23
    cases l2 with
    | nil => simp [charsLt] at h12
    | cons b bs =>
      cases l3 with
      | nil => simp [charsLt] at h23
      | cons c cs =>
        rw [charsLt_cons_iff] at h12 h23 ⊢
        rcases h12 with h12 | ⟨rfl, h12⟩
        · rcases h23 with h23 | ⟨rfl, h23⟩
          · exact Or.inl (lt_trans h12 h23)
          · exact Or.inl h12
        · rcases h23 with h23 | ⟨rfl, h23⟩
          · exact Or.inl h23
          · exact Or.inr ⟨rfl, ih bs cs h12 h23⟩

/-- The lexicographic comparison is total on distinct lists. -/
theorem charsLt_total : ∀ (l1 l2 : List Char), charsLt l1 l2 = false →
    l1 ≠ l2 → charsLt l2 l1 = true := by
  intro l1
  induction l1 with
  | nil =>
    intro l2 hf hne
    cases l2 with
    | nil => exact absurd rfl hne
    | cons b bs => simp [charsLt] at hf
  | cons a as ih =>
    intro l2 hf hne
    cases l2 with
    | nil => simp [charsLt]
    | cons b bs =>
      rw [charsLt_cons_iff]
      rcases lt_trichotomy a b with h | h | h
      · have := (charsLt_cons_iff a b as bs).mpr (Or.inl h)
        exact absurd (this.symm.trans hf) (by simp)
      · subst h
        have htail : charsLt as bs = false := by
          by_cases hc : charsLt as bs = true
          · have h2 := (charsLt_cons_iff a a as bs).mpr (Or.inr ⟨rfl, hc⟩)
            exact absurd (h2.symm.trans hf) (by simp)
          · simpa using hc
        have hne2 : as ≠ bs := fun he => hne (by rw [he])
        exact Or.inr ⟨rfl, ih bs htail hne2⟩
      · exact Or.inl h

/-- String comparison is transitive. -/
theorem strLt_trans {a b c : String} (h1 : strLt a b = true)
    (h2 : strLt b c = true) : strLt a c = true :=
  charsLt_trans _ _ _ h1 h2

/-- Strictly smaller strings are distinct. -/
theorem strLt_ne {a b : String} (h : strLt a b = true) : a ≠ b := by
  intro he
  subst he
  rw [strLt, charsLt_irrefl] at h
  exact absurd h (by simp)

/-- String comparison is total on distinct strings. -/
theorem strLt_total {a b : String} (hf : strLt a b = false) (hne : a ≠ b) :
    strLt b a = true :=
  charsLt_total _ _ hf
    (fun hd => hne (by cases a; cases b; exact congrArg String.mk hd))

/-- Everything in `mapInsert m k v` is `(k, v)` or was already in `m`. -/
theorem mem_mapInsert :
    ∀ (m : List (String × Entity)) (k : String) (v : Entity)
      (x : String × Entity), x ∈ mapInsert m k v → x = (k, v) ∨ x ∈ m := by
  intro m
  induction m with
  | nil =>
    intro k v x hx
    simp [mapInsert] at hx
    exact Or.inl hx
  | cons hd tl ih =>
    intro k v x hx
    obtain ⟨k2, v2⟩ := hd
    by_cases hk : strLt k k2 = true
    · simp only [mapInsert, if_pos hk, List.mem_cons] at hx
      rcases hx with hx | hx | hx
      · exact Or.inl hx
      · exact Or.inr (by simp [hx])
      · exact Or.inr (by simp [hx])
    · simp only [mapInsert, if_neg hk, List.mem_cons] at hx
      rcases hx with hx | hx
      · exact Or.inr (by simp [hx])
      · rcases ih k v x hx with h | h
        · exact Or.inl h
        · exact Or.inr (by simp [h])

/-- Inserting a fresh key keeps the map strictly sorted. -/
theorem sorted_mapInsert :
    ∀ (m : List (String × Entity)) (k : String) (v : Entity),
      SortedKeys m → mapFind m k = none → SortedKeys (mapInsert m k v) := by
  intro m
  induction m with
  | nil => intro k v _ _; simp [mapInsert, SortedKeys]
  | cons hd tl ih =>
    intro k v hs hf
    obtain ⟨k2, v2⟩ := hd
    have hne : k ≠ k2 := by
      intro h
      simp [mapFind, h] at hf
    have hf2 : mapFind tl k = none := by
      simpa [mapFind, hne] using hf
    rcases List.pairwise_cons.mp hs with ⟨hall, htl⟩
    by_cases hk : strLt k k2 = true
    · simp only [mapInsert, if_pos hk]
      refine List.Pairwise.cons ?_ hs
      intro x hx
      rcases List.mem_cons.mp hx with h | h
      · rw [h]; exact hk
      · exact strLt_trans hk (hall x h)
    · simp only [mapInsert, if_neg hk]
      refine List.Pairwise.cons ?_ (ih k v htl hf2)
      intro x hx
      rcases mem_mapInsert tl k v x hx with h | h
      · rw [h]
        exact strLt_total (by simpa using hk) hne
      · exact hall x h

/-- The collision probe keeps the map strictly sorted. -/
theorem sorted_probeInsert (name : String) (e : Entity) :
    ∀ (fuel i : Nat) (m : List (String × Entity)),
      SortedKeys m → SortedKeys (probeInsert m name e fuel i) := by
  intro fuel
  induction fuel with
  | zero => intro i m hs; simpa [probeInsert] using hs
  | succ fuel ih =>
    intro i m hs
    cases hfind : mapFind m (name ++ hexStr i) with
    | none => simpa [probeInsert, hfind] using sorted_mapInsert m _ e hs hfind
    | some _ => simpa [probeInsert, hfind] using ih (i + 1) m hs

/-- Inserting one entity keeps the map strictly sorted. -/
theorem sorted_flatInsert (m : List (String × Entity)) (e : Entity)
    (hs : SortedKeys m) : SortedKeys (flatInsert m e) := by
  cases hfind : mapFind m (getNameFromPath e.path) with
  | none => simpa [flatInsert, hfind] using sorted_mapInsert m _ e hs hfind
  | some _ => simpa [flatInsert, hfind] using sorted_probeInsert _ e _ 0 m hs

/-- The entity fold keeps the map strictly sorted. -/
theorem sorted_foldl_flatStep :
    ∀ (l : List (Option Entity)) (m : List (String × Entity)),
      SortedKeys m → SortedKeys (l.foldl flatStep m) := by
  intro l
  induction l with
  | nil => intro m hs; simpa using hs
  | cons oe l ih =>
    intro m hs
    simp only [List.foldl_cons]
    apply ih
    cases oe with
    | none => simpa [flatStep] using hs
    | some e =>
      by_cases ht : e.etype = EntityType.Transform
      · simpa [flatStep, ht] using hs
      · simpa [flatStep, ht] using sorted_flatInsert m e hs

/-- The map `flatternHierarchy` builds is strictly sorted by key. -/
theorem sorted_flatResult (s : Scene) : SortedKeys (flatResult s) :=
  sorted_foldl_flatStep s.entities [] (by simp [SortedKeys])

/-- Prefixing with "/" is injective on strings. -/
theorem slash_append_inj {a b : String} (h : ("/" ++ a : String) = "/" ++ b) :
    a = b := by
  have hd := congrArg String.data h
  simp only [String.data_append] at hd
  have hdd := List.append_cancel_left hd
  cases a
  cases b
  exact congrArg String.mk hdd

/-- C7: `flatternHierarchy`'s name map is strictly sorted by final key, so
the flat naming is collision-free; the entity collection is rebuilt from
the map in key order with every path rewritten to "/" + finalName, all
output paths are pairwise distinct, and the mapping is a pure function of
the input (deterministic across repeated runs); concretely, two
non-Transform entities both short-named Box come out as /Box and /Box0. -/
theorem scene_flattern_collision_free :
    (∀ s : Scene,
      SortedKeys (flatResult s) ∧
      (Scene.flatternHierarchy s).entities =
        (flatResult s).map (fun kv => some { kv.2 with path := "/" ++ kv.1 }) ∧
      ((Scene.flatternHierarchy s).entities.map
          (fun oe => oe.map Entity.path)).Pairwise (fun a b => a ≠ b) ∧
      Scene.flatternHierarchy s = Scene.flatternHierarchy s) ∧
    (Scene.flatternHierarchy wBoxScene).entities.map
        (fun oe => oe.map Entity.path) =
      [some "/Box", some "/Box0"] := by
  constructor
  · intro s
    refine ⟨sorted_flatResult s, rfl, ?_, rfl⟩
    show (((flatResult s).map
        (fun kv => some { kv.2 with path := "/" ++ kv.1 })).map
          (fun oe => oe.map Entity.path)).Pairwise _
    rw [List.map_map]
    have hcomp : ((fun oe : Option Entity => oe.map Entity.path) ∘
        (fun kv : String × Entity => some { kv.2 with path := "/" ++ kv.1 })) =
        fun kv : String × Entity => some ("/" ++ kv.1) := rfl
    rw [hcomp]
    refine List.Pairwise.map _ ?_ (sorted_flatResult s)
    intro a b hab hcontra
    simp only [Option.some.injEq] at hcontra
    exact absurd (slash_append_inj hcontra) (strLt_ne hab)
  · decide

/-- A map whose function fixes every element is the identity. -/
theorem map_id_of_mem {α : Type} (f : α → α) :
    ∀ (l : List α), (∀ x ∈ l, f x = x) → l.map f = l := by
  intro l
  induction l with
  | nil => intro _; rfl
  | cons x xs ih =>
    intro h
    simp only [List.map_cons]
    rw [h x (by simp), ih (fun y hy => h y (by simp [hy]))]

/-- Canonical settings (Left handedness, scale 1) derive no converters. -/
theorem makeConverters_canonical (cv : SceneImportSettings) (n : String) :
    makeConverters cv
      { name := n, handedness := Handedness.Left, scale_factor := 1 } = [] := by
  simp [makeConverters]

/-- `Scene::import` is the identity on a scene that already carries
canonical settings, provided the external per-mesh refinement pipeline
(refine + updateBounds under the forced refine settings) fixes every mesh
of the scene. -/
theorem importScene_of_canonical (ops : EntityOps) (cv : SceneImportSettings)
    (s2 : Scene)
    (hL : s2.settings.handedness = Handedness.Left)
    (h1 : s2.settings.scale_factor = 1)
    (hmesh : ∀ oe ∈ s2.entities, ∀ e, oe = some e →
      e.etype = EntityType.Mesh →
      ops.updateBounds (ops.refine (applyRefineSettings cv e)) = e) :
    Scene.importScene ops cv s2 = s2 := by
  obtain ⟨⟨n, hd, sf⟩, as, es, cns, bufs⟩ := s2
  simp only at hL h1
  subst hL
  subst h1
  have hcs : makeConverters cv
      { name := n, handedness := Handedness.Left, scale_factor := 1 } = [] :=
    makeConverters_canonical cv n
  show ({ settings := { name := n, handedness := Handedness.Left, scale_factor := 1 }
        , assets := as.map (importAsset ops (makeConverters cv
            { name := n, handedness := Handedness.Left, scale_factor := 1 }))
        , entities := es.map (Option.map (importEntity ops cv (makeConverters cv
            { name := n, handedness := Handedness.Left, scale_factor := 1 })))
        , constraints := cns
        , scene_buffers := bufs } : Scene) = _
  rw [hcs]
  have he : es.map (Option.map (importEntity ops cv [])) = es := by
    apply map_id_of_mem
    intro oe hoe
    cases oe with
    | none => rfl
    | some e =>
      show some (importEntity ops cv [] e) = some e
      by_cases hm : e.etype = EntityType.Mesh
      · have := hmesh (some e) hoe e rfl hm
        simp only [importEntity, if_pos hm]
        rw [show applyConvertersIfAny ops []
            (ops.refine (applyRefineSettings cv (sanitizeEntity e))) =
            ops.refine (applyRefineSettings cv (sanitizeEntity e)) from rfl]
        exact congrArg some this
      · simp only [importEntity, if_neg hm]
        rfl
  have ha : as.map (importAsset ops []) = as := by
    apply map_id_of_mem
    intro a _
    by_cases ht : a.atype = AssetType.Animation
    · simp only [importAsset, if_pos ht]
      have hanim : a.animations.map (importAnim ops []) = a.animations :=
        map_id_of_mem _ _ (fun an _ => rfl)
      rw [hanim]
    · simp only [importAsset, if_neg ht]
  rw [he, ha]

/-- C8: after any `import` the scene's settings are canonical (Left
handedness, scale 1), and — given that the external per-mesh refinement
pipeline fixes the already-imported meshes — a second `import` with the
same import settings is a no-op, since canonical settings derive no
converters. -/
theorem scene_import_canonical_idempotent (ops : EntityOps)
    (cv : SceneImportSettings) (s : Scene)
    (hmesh : ∀ oe ∈ (Scene.importScene ops cv s).entities, ∀ e, oe = some e →
      e.etype = EntityType.Mesh →
      ops.updateBounds (ops.refine (applyRefineSettings cv e)) = e) :
    (Scene.importScene ops cv s).settings.handedness = Handedness.Left ∧
    (Scene.importScene ops cv s).settings.scale_factor = 1 ∧
    Scene.importScene ops cv (Scene.importScene ops cv s) =
      Scene.importScene ops cv s :=
  ⟨rfl, rfl, importScene_of_canonical ops cv _ rfl rfl hmesh⟩

/-- Witness for C8: a right-handed one-mesh scene; with the trivial
capability bundle the refinement pipeline fixes the imported mesh, so the
second import is a no-op and the settings come out canonical. -/
theorem scene_import_canonical_idempotent_witness :
    (Scene.importScene wOps wImportSettings wImportScene).settings.handedness =
      Handedness.Left ∧
    (Scene.importScene wOps wImportSettings wImportScene).settings.scale_factor = 1 ∧
    Scene.importScene wOps wImportSettings
        (Scene.importScene wOps wImportSettings wImportScene) =
      Scene.importScene wOps wImportSettings wImportScene :=
  scene_import_canonical_idempotent wOps wImportSettings wImportScene
    (by
      intro oe hoe e he hm
      have hent : (Scene.importScene wOps wImportSettings wImportScene).entities =
          [some wImpEnt] := by decide
      rw [hent] at hoe
      simp only [List.mem_singleton] at hoe
      subst hoe
      simp only [Option.some.injEq] at he
      subst he
      decide)
